import Mathlib

/-!
Verification of the task-list model of `src/App.tsx` (a single-screen to-do
application). The component state and its event handlers are embedded as pure
Lean functions: React `useState` cells become the fields of `AppState`, each
handler becomes a state-transforming function, and the wall clock read by
`Date.now()` becomes an explicit `now : Nat` argument. JavaScript string
truthiness (`if (task.trim())`, `if (taskBeingEdited)`, `if (savedTasks)`)
is modelled as the corresponding emptiness / nullity tests. Persistence is
modelled at the JSON abstract-syntax level: `JSON.stringify` of a task array
produces the `Json` value below, and the external JSON library's
string-level round-trip is taken as given.
-/

namespace TodoApp

/-- Embeds the `Task` interface of App.tsx (lines 8-12): `id` (string),
`text` (string), `completed` (boolean). -/
structure Task where
  id : String
  text : String
  completed : Bool
deriving DecidableEq

/-- Embeds the component state of App.tsx (lines 15-17): the `task` input
field, the `tasks` list, and `taskBeingEdited` (a string id or `null`). -/
structure AppState where
  task : String
  tasks : List Task
  taskBeingEdited : Option String
deriving DecidableEq

/-- Embeds the `useState` initial values of App.tsx (lines 15-17): empty input,
empty task list, no edit target. -/
def initialState : AppState :=
  { task := "", tasks := [], taskBeingEdited := none }

/-- Embeds the `onChangeText` handler (line 109): `setTask(text)`. -/
def setTask (text : String) (s : AppState) : AppState :=
  { s with task := text }

/-- Holds exactly for the code points the ECMAScript `WhiteSpace` and
`LineTerminator` productions cover, which is what `String.prototype.trim`
removes: TAB, LF, VT, FF, CR, SP, NBSP, the Unicode space separators,
LS, PS and ZWNBSP. -/
def jsWhitespace (c : Char) : Bool :=
  c.toNat == 0x09 || c.toNat == 0x0A || c.toNat == 0x0B || c.toNat == 0x0C ||
  c.toNat == 0x0D || c.toNat == 0x20 || c.toNat == 0xA0 || c.toNat == 0x1680 ||
  (decide (0x2000 ≤ c.toNat) && decide (c.toNat ≤ 0x200A)) ||
  c.toNat == 0x2028 || c.toNat == 0x2029 || c.toNat == 0x202F ||
  c.toNat == 0x205F || c.toNat == 0x3000 || c.toNat == 0xFEFF

/-- Models JavaScript `s.trim()`: removes leading and trailing whitespace. -/
def jsTrim (s : String) : String :=
  String.mk (((s.data.dropWhile jsWhitespace).reverse.dropWhile jsWhitespace).reverse)

/-- Models JavaScript truthiness of a string: every string except `''` is
truthy. -/
def jsTruthy (s : String) : Bool :=
  !s.data.isEmpty

/-- Embeds the add branch of `addOrUpdateTask` (App.tsx lines 58-72): a new
task `{ id: Date.now().toString(), text: task, completed: false }` is appended
to the end of the list and the input is cleared. `Date.now()` is the explicit
`now` argument; `.toString()` is decimal rendering, i.e. `Nat.repr`. The
edit target is not touched in this branch. -/
def addNewTask (now : Nat) (s : AppState) : AppState :=
  let newTask : Task := { id := Nat.repr now, text := s.task, completed := false }
  { s with tasks := s.tasks ++ [newTask], task := "" }

/-- Embeds `addOrUpdateTask` (App.tsx lines 48-74). The outer guard
`if (task.trim())` is JS truthiness: the trimmed input must be non-empty.
The inner `if (taskBeingEdited)` is also truthiness: `null` and the empty
string are both falsy, so the update branch runs only for a non-null,
non-empty edit target; it replaces the text of every task whose `id`
strictly equals the target (`===`), clears the input and clears the edit
target. Otherwise the add branch `addNewTask` runs. -/
def addOrUpdateTask (now : Nat) (s : AppState) : AppState :=
  if jsTruthy (jsTrim s.task) then
    match s.taskBeingEdited with
    | some editId =>
      if jsTruthy editId then
        { s with
          tasks := s.tasks.map fun item =>
            if item.id = editId then { item with text := s.task } else item,
          task := "",
          taskBeingEdited := none }
      else
        addNewTask now s
    | none => addNewTask now s
  else s

/-- Embeds `deleteTask` (App.tsx lines 77-81):
`tasks.filter((item) => item.id !== taskId)`. -/
def deleteTask (taskId : String) (s : AppState) : AppState :=
  { s with tasks := s.tasks.filter fun item => item.id ≠ taskId }

/-- Embeds `toggleTaskCompletion` (App.tsx lines 84-90): flips `completed`
on every task whose `id` equals `taskId`, in place. -/
def toggleTaskCompletion (taskId : String) (s : AppState) : AppState :=
  { s with tasks := s.tasks.map fun item =>
      if item.id = taskId then { item with completed := !item.completed } else item }

/-- Embeds `startEditingTask` (App.tsx lines 93-99): `tasks.find(...)`; when a
task with the given id exists, the input becomes its text and the edit target
becomes the id; otherwise nothing happens. -/
def startEditingTask (taskId : String) (s : AppState) : AppState :=
  match s.tasks.find? fun item => item.id = taskId with
  | some taskToEdit => { s with task := taskToEdit.text, taskBeingEdited := some taskId }
  | none => s

/-- Abstract syntax of JSON values, the interchange format of the external
storage layer (`JSON.parse` / `JSON.stringify`). Numbers are restricted to
integers, which suffices here: the serialized task objects contain only
strings and booleans. -/
inductive Json where
  | null : Json
  | bool (b : Bool) : Json
  | num (n : Int) : Json
  | str (s : String) : Json
  | arr (elems : List Json) : Json
  | obj (fields : List (String × Json)) : Json

/-- Embeds what `JSON.stringify` produces for one task object, at the JSON
abstract-syntax level: an object with exactly the fields `id`, `text`,
`completed`, in the insertion order of the literal on App.tsx line 60. -/
def serializeTask (t : Task) : Json :=
  Json.obj [("id", Json.str t.id), ("text", Json.str t.text),
            ("completed", Json.bool t.completed)]

/-- Embeds `saveTasks` (App.tsx lines 39-45): `JSON.stringify(updatedTasks)`
writes the array of serialized task objects to the durable slot. The
string-level encoding is the external JSON library; this is its abstract
syntax. -/
def saveTasks (updatedTasks : List Task) : Json :=
  Json.arr (updatedTasks.map serializeTask)

/-- Models the outcome of `AsyncStorage.getItem` composed with `JSON.parse`
for the body of `loadTasks`: `none` means the slot is absent or holds the
empty string (both falsy, so `if (savedTasks)` skips the body); `some none`
means `JSON.parse` threw on the stored string; `some (some j)` means the
stored string parsed to the JSON value `j`. -/
abbrev StoredValue := Option (Option Json)

/-- Embeds the `try` body of `loadTasks` (App.tsx lines 29-32) before the
`catch`: reading the slot, and on a truthy stored string, `setTasks` of
whatever `JSON.parse` returned, with no structural validation (TypeScript
types are erased at runtime, so the state really is the raw parsed value).
An `error` result models the `JSON.parse` exception escaping the body. -/
def loadTasksBody (saved : StoredValue) (current : Json) : Except Unit Json :=
  match saved with
  | none => Except.ok current
  | some none => Except.error ()
  | some (some parsed) => Except.ok parsed

/-- Embeds `loadTasks` (App.tsx lines 27-36): the body wrapped in
`try`/`catch`. The catch logs (`console.error`) and returns normally, so the
caller never observes an error and the in-memory state keeps its previous
value on failure. -/
def loadTasks (saved : StoredValue) (current : Json) : Except Unit Json :=
  match loadTasksBody saved current with
  | Except.ok tasks => Except.ok tasks
  | Except.error _ => Except.ok current

/-- Modelled from the spec: the reinterpretation of a parsed JSON value as a
`Task` record, per the serialization contract of spec section 6 ("each task
object has exactly the three fields `id` (string), `text` (string),
`completed` (boolean)"). The repository has no decoding code: `loadTasks`
installs the parsed value unvalidated, so this decoder stands in for the
schema the spec attributes to the stored value. -/
def parseTask : Json → Option Task
  | Json.obj [("id", Json.str i), ("text", Json.str t), ("completed", Json.bool c)] =>
      some { id := i, text := t, completed := c }
  | _ => none

/-- Modelled from the spec: reading a stored JSON value back as a whole
TaskList (an array of task objects), per spec section 6. -/
def parseTaskList : Json → Option (List Task)
  | Json.arr elems => elems.mapM parseTask
  | _ => none

/-- User-level events that drive the component: typing into the input, pressing
the add/update button (at wall-clock time `now`), and the per-row delete,
toggle and edit gestures. -/
inductive Op where
  | setTask (text : String) : Op
  | addOrUpdateTask (now : Nat) : Op
  | deleteTask (taskId : String) : Op
  | toggleTaskCompletion (taskId : String) : Op
  | startEditingTask (taskId : String) : Op
deriving DecidableEq

/-- Dispatches one event to the corresponding App.tsx handler. -/
def applyOp (s : AppState) : Op → AppState
  | Op.setTask t => setTask t s
  | Op.addOrUpdateTask now => addOrUpdateTask now s
  | Op.deleteTask i => deleteTask i s
  | Op.toggleTaskCompletion i => toggleTaskCompletion i s
  | Op.startEditingTask i => startEditingTask i s

/-- Runs a sequence of events from a starting state. -/
def run (s : AppState) (ops : List Op) : AppState :=
  ops.foldl applyOp s

/-- Collects the `Date.now()` readings of the button presses in an event
sequence, in order. -/
def submitTimes : List Op → List Nat
  | [] => []
  | Op.addOrUpdateTask now :: rest => now :: submitTimes rest
  | _ :: rest => submitTimes rest

/-! Helper lemmas. The first group proves that decimal rendering of natural
numbers (`Nat.repr`, the model of JavaScript `Number.prototype.toString`)
is injective, by relating the fuel-based `Nat.toDigitsCore` to `Nat.digits`. -/

/-- Accumulator lemma for `Nat.toDigitsCore`: the digits already collected are
simply appended. -/
theorem toDigitsCore_shift (b fuel : Nat) : ∀ (n : Nat) (ds : List Char),
    Nat.toDigitsCore b fuel n ds = Nat.toDigitsCore b fuel n [] ++ ds := by
  induction fuel with
  | zero => intro n ds; simp [Nat.toDigitsCore]
  | succ fuel ih =>
    intro n ds
    simp only [Nat.toDigitsCore]
    by_cases h : n / b = 0
    · simp [h]
    · rw [if_neg h, if_neg h, ih (n / b) (Nat.digitChar (n % b) :: ds),
          ih (n / b) [Nat.digitChar (n % b)], List.append_assoc]
      rfl

/-- Given enough fuel, `Nat.toDigitsCore` produces the base-10 digits of
`Nat.digits`, rendered and reversed. -/
theorem toDigitsCore_eq_digits (fuel : Nat) : ∀ (n : Nat), n ≠ 0 → n ≤ fuel →
    Nat.toDigitsCore 10 fuel n [] = ((Nat.digits 10 n).map Nat.digitChar).reverse := by
  induction fuel with
  | zero => intro n hn h; omega
  | succ fuel ih =>
    intro n hn h
    have hpos : 0 < n := Nat.pos_of_ne_zero hn
    rw [Nat.digits_def' (by norm_num : (1:ℕ) < 10) hpos]
    simp only [Nat.toDigitsCore]
    by_cases h0 : n / 10 = 0
    · rw [if_pos h0, h0]
      simp
    · have hlt : n / 10 ≤ fuel := by
        have : n / 10 < n := Nat.div_lt_self hpos (by norm_num)
        omega
      rw [if_neg h0, toDigitsCore_shift, ih (n / 10) h0 hlt]
      simp

/-- Distinct decimal digits render to distinct characters. -/
theorem digitChar_inj_of_lt (a b : Nat) (ha : a < 10) (hb : b < 10)
    (h : Nat.digitChar a = Nat.digitChar b) : a = b := by
  interval_cases a <;> interval_cases b <;> revert h <;> decide

/-- Rendering digit lists below 10 to characters is injective. -/
theorem map_digitChar_inj : ∀ (l1 l2 : List Nat), (∀ d ∈ l1, d < 10) →
    (∀ d ∈ l2, d < 10) → l1.map Nat.digitChar = l2.map Nat.digitChar → l1 = l2 := by
  intro l1
  induction l1 with
  | nil =>
    intro l2 _ _ h
    cases l2 with
    | nil => rfl
    | cons b bs => simp at h
  | cons a as ih =>
    intro l2 h1 h2 h
    cases l2 with
    | nil => simp at h
    | cons b bs =>
      simp only [List.map_cons, List.cons.injEq] at h
      have hab := digitChar_inj_of_lt a b (h1 a (by simp)) (h2 b (by simp)) h.1
      subst hab
      rw [ih bs (fun d hd => h1 d (List.mem_cons_of_mem _ hd))
        (fun d hd => h2 d (List.mem_cons_of_mem _ hd)) h.2]

/-- Packing a character list into a string is injective. -/
theorem asString_inj (l1 l2 : List Char) (h : l1.asString = l2.asString) : l1 = l2 := by
  simpa [List.asString] using congrArg String.data h

/-- Expresses `Nat.repr` of a positive number through `Nat.digits`. -/
theorem nat_repr_eq_digits (n : Nat) (hn : n ≠ 0) :
    Nat.repr n = (((Nat.digits 10 n).map Nat.digitChar).reverse).asString := by
  show (Nat.toDigits 10 n).asString = _
  rw [Nat.toDigits, toDigitsCore_eq_digits (n + 1) n hn (by omega)]

/-- Decimal rendering of natural numbers is injective: two distinct clock
readings produce two distinct id strings. -/
theorem nat_repr_inj (m n : Nat) (h : Nat.repr m = Nat.repr n) : m = n := by
  have digits0 : ∀ k : Nat, k ≠ 0 →
      (['0'] : List Char) = ((Nat.digits 10 k).map Nat.digitChar).reverse → False := by
    intro k hk heq
    have h1 : (Nat.digits 10 k).map Nat.digitChar = ['0'] := by
      have := congrArg List.reverse heq
      simpa using this.symm
    have h2 : Nat.digits 10 k = [0] := by
      apply map_digitChar_inj _ [0]
        (fun d hd => Nat.digits_lt_base (by norm_num) hd)
        (fun d hd => by simp at hd; omega)
      simpa using h1
    have h3 : k = 0 := by
      have := congrArg (Nat.ofDigits 10) h2
      rwa [Nat.ofDigits_digits, Nat.ofDigits] at this
    exact hk h3
  by_cases hm : m = 0 <;> by_cases hn : n = 0
  · omega
  · exfalso
    subst hm
    rw [nat_repr_eq_digits n hn] at h
    exact digits0 n hn (asString_inj _ _ h)
  · exfalso
    subst hn
    rw [nat_repr_eq_digits m hm] at h
    exact digits0 m hm (asString_inj _ _ h.symm)
  · rw [nat_repr_eq_digits m hm, nat_repr_eq_digits n hn] at h
    have h2 := List.reverse_injective (asString_inj _ _ h)
    have h3 := map_digitChar_inj _ _
      (fun d hd => Nat.digits_lt_base (by norm_num) hd)
      (fun d hd => Nat.digits_lt_base (by norm_num) hd) h2
    exact Nat.digits_inj_iff.mp h3

/-- Starting an edit never changes the task list. -/
theorem startEditingTask_tasks (i : String) (s : AppState) :
    (startEditingTask i s).tasks = s.tasks := by
  simp only [startEditingTask]
  split <;> rfl

/-- Mapping an id-preserving function over the tasks leaves the id list
unchanged. -/
theorem map_id_preserving_ids (ts : List Task) (f : Task → Task)
    (hf : ∀ t, (f t).id = t.id) :
    (ts.map f).map (fun t => t.id) = ts.map (fun t => t.id) := by
  rw [List.map_map]
  exact List.map_congr_left fun t _ => hf t

/-- Appending a task whose id is fresh preserves distinctness of ids. -/
theorem append_task_nodup (ts : List Task) (nw : Nat) (txt : String)
    (hnodup : (ts.map fun t => t.id).Nodup)
    (hfr : ∀ t ∈ ts, t.id ≠ Nat.repr nw) :
    ((ts ++ [({ id := Nat.repr nw, text := txt, completed := false } : Task)]).map
        fun t => t.id).Nodup := by
  rw [List.map_append]
  rw [List.nodup_append]
  refine ⟨hnodup, by simp, ?_⟩
  intro a ha
  obtain ⟨u, hu, rfl⟩ := List.mem_map.mp ha
  simp only [List.map_cons, List.map_nil, List.mem_singleton]
  intro hcontra
  exact hfr u hu hcontra

/-- Appending a task stamped with the current clock reading keeps every id
distinct from the ids the remaining clock readings will generate. -/
theorem append_task_fresh (ts : List Task) (nw : Nat) (txt : String) (tms : List Nat)
    (hfresh : ∀ t ∈ ts, ∀ m ∈ tms, t.id ≠ Nat.repr m)
    (hnw : nw ∉ tms) :
    ∀ t ∈ ts ++ [({ id := Nat.repr nw, text := txt, completed := false } : Task)],
      ∀ m ∈ tms, t.id ≠ Nat.repr m := by
  intro t ht m hm
  rcases List.mem_append.mp ht with hts | hnew
  · exact hfresh t hts m hm
  · have : t = ({ id := Nat.repr nw, text := txt, completed := false } : Task) := by
      simpa using hnew
    subst this
    simp only []
    intro hcontra
    have : nw = m := nat_repr_inj nw m hcontra
    exact hnw (this ▸ hm)

/-- Invariant for the event loop: if the current ids are pairwise distinct and
none of them collides with the id any upcoming clock reading would generate,
and the upcoming clock readings are pairwise distinct, then after running any
event sequence the ids are still pairwise distinct. -/
theorem run_nodup_invariant (ops : List Op) : ∀ (s : AppState),
    ((s.tasks.map fun t => t.id)).Nodup →
    (∀ t ∈ s.tasks, ∀ m ∈ submitTimes ops, t.id ≠ Nat.repr m) →
    (submitTimes ops).Nodup →
    (((run s ops).tasks.map fun t => t.id)).Nodup := by
  induction ops with
  | nil => intro s hnodup _ _; simpa [run] using hnodup
  | cons op rest ih =>
    intro s hnodup hfresh htimes
    have hrun : run s (op :: rest) = run (applyOp s op) rest := rfl
    rw [hrun]
    cases op with
    | setTask txt =>
      exact ih (applyOp s (Op.setTask txt)) hnodup hfresh htimes
    | startEditingTask i =>
      have hts : (applyOp s (Op.startEditingTask i)).tasks = s.tasks :=
        startEditingTask_tasks i s
      exact ih _ (by rw [hts]; exact hnodup) (by rw [hts]; exact hfresh) htimes
    | deleteTask i =>
      apply ih
      · have hsub : ((deleteTask i s).tasks.map fun t => t.id).Sublist
            (s.tasks.map fun t => t.id) :=
          List.Sublist.map _ (List.filter_sublist _)
        exact hnodup.sublist hsub
      · intro t ht m hm
        exact hfresh t (List.mem_of_mem_filter ht) m hm
      · exact htimes
    | toggleTaskCompletion i =>
      have hids : ((applyOp s (Op.toggleTaskCompletion i)).tasks.map fun t => t.id)
          = s.tasks.map fun t => t.id := by
        apply map_id_preserving_ids
        intro t
        by_cases h : t.id = i <;> simp [h]
      apply ih
      · rw [hids]; exact hnodup
      · intro t ht m hm
        simp only [applyOp, toggleTaskCompletion] at ht
        obtain ⟨u, hu, rfl⟩ := List.mem_map.mp ht
        have hidq : (if u.id = i then { u with completed := !u.completed } else u).id
            = u.id := by
          by_cases h : u.id = i <;> simp [h]
        rw [hidq]
        exact hfresh u hu m hm
      · exact htimes
    | addOrUpdateTask now =>
      have hst : submitTimes (Op.addOrUpdateTask now :: rest)
          = now :: submitTimes rest := rfl
      rw [hst] at hfresh htimes
      have hnow : now ∉ submitTimes rest := (List.nodup_cons.mp htimes).1
      have htimes' : (submitTimes rest).Nodup := (List.nodup_cons.mp htimes).2
      have hfresh' : ∀ t ∈ s.tasks, ∀ m ∈ submitTimes rest, t.id ≠ Nat.repr m :=
        fun t ht m hm => hfresh t ht m (List.mem_cons_of_mem _ hm)
      have hfreshnow : ∀ t ∈ s.tasks, t.id ≠ Nat.repr now :=
        fun t ht => hfresh t ht now (List.mem_cons_self _ _)
      by_cases htrim : jsTruthy (jsTrim s.task) = true
      · cases hedit : s.taskBeingEdited with
        | some editId =>
          by_cases hid : jsTruthy editId = true
          · have htasks : (applyOp s (Op.addOrUpdateTask now)).tasks
                = s.tasks.map fun item =>
                    if item.id = editId then { item with text := s.task } else item := by
              simp [applyOp, addOrUpdateTask, htrim, hedit, hid]
            apply ih
            · rw [htasks, map_id_preserving_ids]
              · exact hnodup
              · intro t
                by_cases h : t.id = editId <;> simp [h]
            · intro t ht m hm
              rw [htasks] at ht
              obtain ⟨u, hu, rfl⟩ := List.mem_map.mp ht
              have hidq : (if u.id = editId then { u with text := s.task } else u).id
                  = u.id := by
                by_cases h : u.id = editId <;> simp [h]
              rw [hidq]
              exact hfresh' u hu m hm
            · exact htimes'
          · have htasks : (applyOp s (Op.addOrUpdateTask now)).tasks
                = s.tasks ++ [({ id := Nat.repr now, text := s.task, completed := false } : Task)] := by
              simp [applyOp, addOrUpdateTask, htrim, hedit, hid, addNewTask]
            apply ih
            · rw [htasks]
              exact append_task_nodup s.tasks now s.task hnodup hfreshnow
            · rw [htasks]
              exact append_task_fresh s.tasks now s.task (submitTimes rest) hfresh' hnow
            · exact htimes'
        | none =>
          have htasks : (applyOp s (Op.addOrUpdateTask now)).tasks
              = s.tasks ++ [({ id := Nat.repr now, text := s.task, completed := false } : Task)] := by
            simp [applyOp, addOrUpdateTask, htrim, hedit, addNewTask]
          apply ih
          · rw [htasks]
            exact append_task_nodup s.tasks now s.task hnodup hfreshnow
          · rw [htasks]
            exact append_task_fresh s.tasks now s.task (submitTimes rest) hfresh' hnow
          · exact htimes'
      · have hstate : applyOp s (Op.addOrUpdateTask now) = s := by
          simp [applyOp, addOrUpdateTask, htrim]
        rw [hstate]
        exact ih s hnodup hfresh' htimes'

/-- C1 counterexample: the claim "for every sequence of operations starting
from the empty TaskList, the resulting ids are pairwise distinct" fails on
the code, because `Date.now().toString()` does not guarantee uniqueness: two
button presses within the same clock millisecond (here both at time 5)
produce two tasks with the same id "5". -/
theorem duplicate_timestamp_counterexample :
    ¬ (((run initialState
        [Op.setTask "a", Op.addOrUpdateTask 5, Op.setTask "b", Op.addOrUpdateTask 5]).tasks.map
          fun t => t.id).Nodup) := by
  decide

/-- C1 (amended): for every sequence of add/update/toggleCompletion/delete
operations starting from the empty TaskList, PROVIDED the `Date.now()` clock
readings of the button presses are pairwise distinct, the resulting TaskList
has pairwise-distinct ids. -/
theorem distinct_clock_readings_give_distinct_ids (ops : List Op)
    (h : (submitTimes ops).Nodup) :
    (((run initialState ops).tasks.map fun t => t.id)).Nodup :=
  run_nodup_invariant ops initialState (by simp [initialState])
    (by simp [initialState]) h

/-- Witness for C1 (amended) at a concrete event sequence with distinct clock
readings 1 and 2. -/
theorem distinct_clock_readings_give_distinct_ids_witness :
    (((run initialState
        [Op.setTask "a", Op.addOrUpdateTask 1, Op.setTask "b", Op.addOrUpdateTask 2]).tasks.map
          fun t => t.id)).Nodup :=
  distinct_clock_readings_give_distinct_ids
    [Op.setTask "a", Op.addOrUpdateTask 1, Op.setTask "b", Op.addOrUpdateTask 2]
    (by decide)

/-- C2 counterexample: the claim "every malformed OR structurally-incompatible
stored value makes load() yield an empty TaskList" fails on the code. The
stored string "0" is syntactically valid JSON (`JSON.parse` succeeds with the
number 0), is structurally incompatible with the TaskList schema (the
spec-level decoder rejects it), yet `loadTasks` installs it as the state
unvalidated instead of yielding the empty TaskList. -/
theorem load_unvalidated_counterexample :
    parseTaskList (Json.num 0) = none ∧
    loadTasks (some (some (Json.num 0))) (saveTasks []) ≠ Except.ok (saveTasks []) :=
  ⟨rfl, by simp [loadTasks, loadTasksBody, saveTasks]⟩

/-- C2 (amended): `loadTasks` never propagates an error to the caller, and for
every stored value that is absent, empty, or on which `JSON.parse` throws
(syntactically malformed), it yields the empty TaskList. Syntactically valid
but schema-incompatible values are installed as the state without
validation. -/
theorem load_failure_yields_empty_list (saved : StoredValue) :
    (∃ t, loadTasks saved (saveTasks []) = Except.ok t)
    ∧ ((saved = none ∨ saved = some none) →
        loadTasks saved (saveTasks []) = Except.ok (saveTasks [])) := by
  constructor
  · match saved with
    | none => exact ⟨_, rfl⟩
    | some none => exact ⟨_, rfl⟩
    | some (some j) => exact ⟨_, rfl⟩
  · rintro (rfl | rfl) <;> rfl

/-- Witness for C2 (amended) at the concrete stored value on which
`JSON.parse` throws. -/
theorem load_failure_yields_empty_list_witness :
    loadTasks (some none) (saveTasks []) = Except.ok (saveTasks []) :=
  (load_failure_yields_empty_list (some none)).2 (Or.inr rfl)

/-- C3: whenever the trimmed input is empty (for example `''` or `'   '`),
pressing the add/update button changes nothing at all: the whole component
state, and with it the TaskList and every task's text, is untouched.
This covers both the add mode and the edit mode, since the guard
`if (task.trim())` is the first thing the handler checks. -/
theorem blank_input_submit_noop (s : AppState) (now : Nat) (input : String)
    (h : jsTruthy (jsTrim input) = false) :
    addOrUpdateTask now (setTask input s) = setTask input s := by
  simp [addOrUpdateTask, setTask, h]

/-- Witness for C3 with the whitespace-only input. -/
theorem blank_input_submit_noop_witness :
    addOrUpdateTask 0 (setTask "   " initialState) = setTask "   " initialState :=
  blank_input_submit_noop initialState 0 "   " (by decide)

/-- C4 counterexample: the claim fails for a task whose id is the empty
string. Such a task can exist (persistence performs no validation on load),
`beginEdit` records the empty id as the edit target, but JavaScript
truthiness makes `if (taskBeingEdited)` treat it as "no edit in progress",
so the subsequent press APPENDS a new task: the list grows from 1 to 2
instead of staying at length 1. -/
theorem edit_empty_id_appends_counterexample :
    (addOrUpdateTask 0 (setTask "buy bread"
        (startEditingTask ""
          { task := "", tasks := [{ id := "", text := "buy milk", completed := false }],
            taskBeingEdited := none }))).tasks.length ≠ 1 := by
  decide

/-- C4 (amended): for every TaskList containing a task X whose id is non-empty
(as every generated id is), `beginEdit(X)` followed by typing a non-blank text
and pressing the button updates in place: every task with X's id (so X in
particular) gets the new text, all others are untouched, the list length is
unchanged, and the edit target is cleared. -/
theorem begin_edit_then_submit_updates (s : AppState) (now : Nat) (x : Task) (newText : String)
    (hx : x ∈ s.tasks) (hid : jsTruthy x.id = true) (ht : jsTruthy (jsTrim newText) = true) :
    (addOrUpdateTask now (setTask newText (startEditingTask x.id s))).tasks
        = s.tasks.map (fun t => if t.id = x.id then { t with text := newText } else t)
    ∧ (addOrUpdateTask now (setTask newText (startEditingTask x.id s))).tasks.length
        = s.tasks.length
    ∧ (addOrUpdateTask now (setTask newText (startEditingTask x.id s))).taskBeingEdited = none := by
  have hsome : (s.tasks.find? fun item => item.id = x.id).isSome := by
    rw [List.find?_isSome]
    exact ⟨x, hx, by simp⟩
  obtain ⟨y, hy⟩ := Option.isSome_iff_exists.mp hsome
  refine ⟨?_, ?_, ?_⟩ <;> simp [startEditingTask, hy, setTask, addOrUpdateTask, ht, hid]

/-- Witness for C4 (amended): the spec's Scenario B. Editing the task
"buy milk" and submitting "buy bread" rewrites the text in place. -/
theorem begin_edit_then_submit_updates_witness :
    (addOrUpdateTask 0 (setTask "buy bread"
        (startEditingTask "1"
          { task := "", tasks := [{ id := "1", text := "buy milk", completed := false }],
            taskBeingEdited := none }))).tasks
      = [{ id := "1", text := "buy bread", completed := false }] := by
  have h := begin_edit_then_submit_updates
      { task := "", tasks := [{ id := "1", text := "buy milk", completed := false }],
        taskBeingEdited := none }
      0 { id := "1", text := "buy milk", completed := false } "buy bread"
      (by decide) (by decide) (by decide)
  rw [h.1]
  decide

/-- C5: serializing a TaskList and parsing it back yields an equal TaskList,
with the same ids, texts and completed flags in the same order. Proved at the
JSON abstract-syntax level: the string rendering and re-parsing between the
two sides is the external JSON library. -/
theorem serialize_parse_round_trip (ts : List Task) :
    parseTaskList (saveTasks ts) = some ts := by
  simp only [saveTasks, parseTaskList]
  induction ts with
  | nil => rfl
  | cons t rest ih =>
    simp only [List.map_cons, List.mapM_cons] at *
    rw [show parseTask (serializeTask t) = some t from rfl]
    simp_all

/-- C6: with no edit in progress and a non-blank trimmed input, pressing the
button appends exactly one new task, with the given text verbatim and
`completed` false, to the end of the list, leaving all existing tasks (and
all other state except the cleared input) unchanged. -/
theorem add_appends_new_task (s : AppState) (now : Nat) (input : String)
    (ht : jsTruthy (jsTrim input) = true) (hedit : s.taskBeingEdited = none) :
    addOrUpdateTask now (setTask input s)
      = { s with
            task := "",
            tasks := s.tasks ++ [{ id := Nat.repr now, text := input, completed := false }] } := by
  simp [addOrUpdateTask, setTask, hedit, addNewTask, ht]

/-- Witness for C6: the spec's Scenario A, adding "buy milk" to the empty
list. -/
theorem add_appends_new_task_witness :
    addOrUpdateTask 0 (setTask "buy milk" initialState)
      = { initialState with
            task := "",
            tasks := [{ id := Nat.repr 0, text := "buy milk", completed := false }] } :=
  add_appends_new_task initialState 0 "buy milk" (by decide) rfl

/-- C7: frame and effect properties of the three per-task operations.
Toggle preserves length and leaves every position holding a task with a
different id unchanged; the update branch (an edit in progress targeting a
truthy id, non-blank input) does the same; delete removes exactly the tasks
with the matching id, is a sublist of the original (relative order
preserved), and keeps every non-matching task; and when no task carries the
given id, delete, toggle and update all leave the list unchanged. -/
theorem mutation_frame_properties (s : AppState) (i : String) (now : Nat) :
    ((toggleTaskCompletion i s).tasks.length = s.tasks.length
      ∧ ∀ k : Nat, ∀ t, s.tasks[k]? = some t → t.id ≠ i →
          (toggleTaskCompletion i s).tasks[k]? = some t)
    ∧ (s.taskBeingEdited = some i → jsTruthy i = true → jsTruthy (jsTrim s.task) = true →
        (addOrUpdateTask now s).tasks.length = s.tasks.length
        ∧ ∀ k : Nat, ∀ t, s.tasks[k]? = some t → t.id ≠ i →
            (addOrUpdateTask now s).tasks[k]? = some t)
    ∧ (∀ t ∈ (deleteTask i s).tasks, t.id ≠ i)
    ∧ (deleteTask i s).tasks.Sublist s.tasks
    ∧ (∀ t ∈ s.tasks, t.id ≠ i → t ∈ (deleteTask i s).tasks)
    ∧ ((∀ t ∈ s.tasks, t.id ≠ i) →
        (deleteTask i s).tasks = s.tasks
        ∧ (toggleTaskCompletion i s).tasks = s.tasks
        ∧ (s.taskBeingEdited = some i → jsTruthy i = true →
            (addOrUpdateTask now s).tasks = s.tasks)) := by
  refine ⟨⟨?_, ?_⟩, ?_, ?_, ?_, ?_, ?_⟩
  · simp [toggleTaskCompletion]
  · intro k t hk hne
    simp [toggleTaskCompletion, List.getElem?_map, hk, hne]
  · intro hedit hid htrim
    constructor
    · simp [addOrUpdateTask, hedit, hid, htrim]
    · intro k t hk hne
      simp [addOrUpdateTask, hedit, hid, htrim, List.getElem?_map, hk, hne]
  · intro t ht
    have := List.mem_filter.mp ht
    simpa using this.2
  · exact List.filter_sublist _
  · intro t ht hne
    exact List.mem_filter.mpr ⟨ht, by simpa using hne⟩
  · intro habsent
    refine ⟨?_, ?_, ?_⟩
    · apply List.filter_eq_self.mpr
      intro t ht
      simpa using habsent t ht
    · simp only [toggleTaskCompletion]
      rw [List.map_congr_left, List.map_id]
      intro t ht
      simp [habsent t ht]
    · intro hedit hid
      by_cases htrim : jsTruthy (jsTrim s.task) = true
      · simp only [addOrUpdateTask, hedit, hid, htrim, if_true]
        rw [List.map_congr_left, List.map_id]
        intro t ht
        simp [habsent t ht]
      · simp [addOrUpdateTask, htrim]

/-- Witness for C7 at a concrete state: deleting an absent id is a no-op. -/
theorem mutation_frame_properties_witness :
    (deleteTask "2"
      { task := "", tasks := [{ id := "1", text := "x", completed := false }],
        taskBeingEdited := none }).tasks
      = [{ id := "1", text := "x", completed := false }] :=
  ((mutation_frame_properties
      { task := "", tasks := [{ id := "1", text := "x", completed := false }],
        taskBeingEdited := none } "2" 0).2.2.2.2.2 (by decide)).1

/-- C8: toggling completion twice with the same id restores the whole state,
so in particular every task's `completed` flag returns to its original value.
Proved for every id, present or not, which subsumes the claim. -/
theorem toggle_twice_restores (s : AppState) (i : String) :
    toggleTaskCompletion i (toggleTaskCompletion i s) = s := by
  cases s with
  | mk ta ts ed =>
    simp only [toggleTaskCompletion, List.map_map]
    congr 1
    induction ts with
    | nil => rfl
    | cons t rest ih =>
      simp only [List.map_cons, ih, Function.comp]
      congr 1
      obtain ⟨tid, ttext, tcomp⟩ := t
      by_cases h : tid = i <;> simp [h]

/-- C9: when no task carries the given id, `startEditingTask` is a complete
no-op: the edit target, the input text and the TaskList are all unchanged. -/
theorem begin_edit_absent_noop (s : AppState) (i : String)
    (h : ∀ t ∈ s.tasks, t.id ≠ i) :
    startEditingTask i s = s := by
  have hf : (s.tasks.find? fun item => item.id = i) = none := by
    rw [List.find?_eq_none]
    intro t ht
    simp [h t ht]
  simp [startEditingTask, hf]

/-- Witness for C9 at a concrete state whose only task has a different id. -/
theorem begin_edit_absent_noop_witness :
    startEditingTask "2"
        { task := "", tasks := [{ id := "1", text := "x", completed := false }],
          taskBeingEdited := none }
      = { task := "", tasks := [{ id := "1", text := "x", completed := false }],
          taskBeingEdited := none } :=
  begin_edit_absent_noop _ "2" (by decide)

/-- C10: the input text is stored verbatim, never trimmed. With a non-blank
trimmed input, the add branch appends a task whose text is the raw input
(leading and trailing whitespace included), and the update branch writes the
raw input into every task with the target id. -/
theorem stored_text_verbatim (s : AppState) (now : Nat) (input : String)
    (ht : jsTruthy (jsTrim input) = true) :
    (s.taskBeingEdited = none →
      addOrUpdateTask now (setTask input s)
        = { s with
              task := "",
              tasks := s.tasks ++ [{ id := Nat.repr now, text := input, completed := false }] })
    ∧ (∀ e, s.taskBeingEdited = some e → jsTruthy e = true →
        (addOrUpdateTask now (setTask input s)).tasks
          = s.tasks.map fun t => if t.id = e then { t with text := input } else t) := by
  refine ⟨fun hedit => ?_, fun e hedit he => ?_⟩
  · simp [addOrUpdateTask, setTask, hedit, addNewTask, ht]
  · simp [addOrUpdateTask, setTask, hedit, he, ht]

/-- Witness for C10 with an input padded by whitespace on both sides: the
stored text keeps the padding. -/
theorem stored_text_verbatim_witness :
    addOrUpdateTask 0 (setTask "  buy milk  " initialState)
      = { initialState with
            task := "",
            tasks := [{ id := Nat.repr 0, text := "  buy milk  ", completed := false }] } :=
  (stored_text_verbatim initialState 0 "  buy milk  " (by decide)).1 rfl

end TodoApp
